import Mathlib

/-!
Verification development for the casino-backend repository.

Part 1 models the provably-fair roulette engine.  The engine's code is not
part of the repository snapshot (only its test suite and callers are), so
every definition in the `Roulette` namespace is modelled from the spec
(spec.md §3, §4), as its doc comment records.  Monetary amounts use the
integer minor-units representation the spec recommends (§3, §9); the HMAC
digest function is kept as an explicit parameter, since the spec treats it
as an abstract keyed hash whose exact constants are protocol data.

Part 2 (namespace `Admin`) embeds the credit-request code that is present
in the repository: `app/admin/service.py` and `app/credits/routes.py`.
-/

namespace Roulette

/-- Modelled from the spec (§4.2): wheel colors. -/
inductive Color
  | green
  | red
  | black
deriving DecidableEq

/-- Modelled from the spec (§4.2): the eighteen red pockets of the wheel. -/
def redPockets : List Nat := [1, 3, 5, 7, 9, 12, 14, 16, 18, 19, 21, 23, 25, 27, 30, 32, 34, 36]

/-- Modelled from the spec (§4.2): pocket 0 is green, the fixed red set is red,
every other nonzero pocket is black. -/
def colorOf (p : Nat) : Color :=
  if p = 0 then Color.green
  else if p ∈ redPockets then Color.red
  else Color.black

/-- Hex digit for a value below 16 (lower-case, as in a Python hexdigest). -/
def hexDigit (n : Nat) : Char :=
  if n < 10 then Char.ofNat (48 + n) else Char.ofNat (87 + n)

/-- Two hex digits for one byte. -/
def hexByte (b : Nat) : String :=
  String.mk [hexDigit (b / 16 % 16), hexDigit (b % 16)]

/-- Hex encoding of a digest given as a list of bytes. -/
def hexEncode (bs : List Nat) : String :=
  String.join (bs.map hexByte)

/-- Modelled from the spec (§4.2): the first four digest bytes read as a
big-endian unsigned integer. -/
def prefixValue (bs : List Nat) : Nat :=
  (bs.take 4).foldl (fun acc b => acc * 256 + b % 256) 0

/-- Modelled from the spec (§4.2): `derive(secret_seed, client_seed, nonce)`.
The message is `client_seed || ":" || nonce`; the digest (produced by the
abstract HMAC parameter) yields the verification tag via hex encoding and the
pocket via the four-byte prefix reduced modulo 37; the color is the fixed
lookup on the pocket. -/
def derive (hmac : String → String → List Nat) (secretSeed clientSeed : String)
    (nonce : Nat) : Nat × Color × String :=
  let digest := hmac secretSeed (clientSeed ++ ":" ++ toString nonce)
  let pocket := prefixValue digest % 37
  (pocket, colorOf pocket, hexEncode digest)

/-- Modelled from the spec (§3): the tagged bet variants. -/
inductive BetKind
  | color (side : Color)
  | odd_even (odd : Bool)
  | low_high (low : Bool)
  | dozen (which : Nat)
  | column (which : Nat)
  | straight (number : Nat)
deriving DecidableEq

/-- Modelled from the spec (§3): a bet is a variant plus a stake amount
(integer minor-units, as §3 and §9 recommend). -/
structure Bet where
  kind : BetKind
  amount : Int
deriving DecidableEq

/-- Modelled from the spec (§4.3): the fixed multiplier table — straight 35,
dozen/column 2, color/odd-even/low-high 1. -/
def multiplier : BetKind → Int
  | BetKind.straight _ => 35
  | BetKind.dozen _ => 2
  | BetKind.column _ => 2
  | BetKind.color _ => 1
  | BetKind.odd_even _ => 1
  | BetKind.low_high _ => 1

/-- Modelled from the spec (§4.3): the "won" predicates per bet shape. -/
def wins (k : BetKind) (pocket : Nat) : Bool :=
  match k with
  | BetKind.color side => pocket != 0 && colorOf pocket == side
  | BetKind.odd_even odd => pocket != 0 && ((pocket % 2 == 1) == odd)
  | BetKind.low_high low =>
      pocket != 0 && (if low then pocket ≤ 18 else 19 ≤ pocket)
  | BetKind.dozen which =>
      pocket != 0 && ((which - 1) * 12 + 1 ≤ pocket && pocket ≤ which * 12)
  | BetKind.column which => pocket != 0 && (pocket % 3 == which % 3)
  | BetKind.straight number => pocket == number

/-- Modelled from the spec (§4.3): well-formedness of a bet — positive stake,
`which` in 1..3 for dozen/column, a red/black side for color bets, a target
in 0..36 for straight bets. -/
def validBet (b : Bet) : Bool :=
  0 < b.amount &&
    match b.kind with
    | BetKind.color side => side != Color.green
    | BetKind.dozen which => 1 ≤ which && which ≤ 3
    | BetKind.column which => 1 ≤ which && which ≤ 3
    | BetKind.straight number => number ≤ 36
    | BetKind.odd_even _ => true
    | BetKind.low_high _ => true

/-- Modelled from the spec (§3): the user fields the ledger touches — the
spendable balance and the two lifetime counters. -/
structure User where
  balance : Int
  totalWon : Int
  totalLost : Int
deriving DecidableEq

/-- Modelled from the spec (§3): a play session — secret seed, its public
commitment, the nonce counter and the `revealed` flag. -/
structure Session where
  secretSeed : String
  commitment : String
  nonce : Nat
  revealed : Bool
deriving DecidableEq

/-- Modelled from the spec (§3): one recorded spin. -/
structure Spin where
  nonce : Nat
  clientSeed : String
  tag : String
  pocket : Nat
  color : Color
deriving DecidableEq

/-- The state a bet request acts on: the owning user, the session, and the
session's append-only spin history. -/
structure LedgerState where
  user : User
  session : Session
  spins : List Spin
deriving DecidableEq

/-- Modelled from the spec (§7): the error taxonomy of the core. -/
inductive Err
  | NotFound
  | InvalidState
  | InvalidBet
  | InsufficientFunds
  | StorageError
deriving DecidableEq

/-- Modelled from the spec (§4.4 step 5): apply the resolution to the user,
who has conceptually already had the stake reserved — on a win, credit
`stake * multiplier` and add it to lifetime winnings; on a loss, add the
stake to lifetime losses.  Returns the updated user and the payout. -/
def settle (u : User) (b : Bet) (won : Bool) : User × Int :=
  let payout := if won then b.amount * multiplier b.kind else 0
  if won then
    ({ balance := u.balance - b.amount + payout, totalWon := u.totalWon + payout,
       totalLost := u.totalLost }, payout)
  else
    ({ balance := u.balance - b.amount, totalWon := u.totalWon,
       totalLost := u.totalLost + b.amount }, payout)

/-- Modelled from the spec (§4.4): the settlement transaction.  The session
is loaded (existence is the persistence collaborator's concern, §6): fail
`InvalidState` if revealed; fail `InsufficientFunds` if `balance < stake`;
fail `InvalidBet` on a malformed shape before any funds are touched; then
debit, consume the current nonce, derive, resolve, settle and append the
spin.  A failed request returns the state unchanged (§4.4 step 6, §7). -/
def place_bet (hmac : String → String → List Nat) (st : LedgerState) (b : Bet)
    (clientSeed : String) : LedgerState × Except Err (Spin × Bool × Int) :=
  if st.session.revealed then (st, Except.error Err.InvalidState)
  else if st.user.balance < b.amount then (st, Except.error Err.InsufficientFunds)
  else if validBet b = false then (st, Except.error Err.InvalidBet)
  else
    let n := st.session.nonce
    let d := derive hmac st.session.secretSeed clientSeed n
    let won := wins b.kind d.1
    let s := settle st.user b won
    let spin : Spin := { nonce := n, clientSeed := clientSeed, tag := d.2.2,
                         pocket := d.1, color := d.2.1 }
    ({ user := s.1, session := { st.session with nonce := n + 1 },
       spins := st.spins ++ [spin] },
     Except.ok (spin, won, s.2))

/-- A sequence of bet requests run strictly in order; the run stops at the
first failing request. -/
def run_bets (hmac : String → String → List Nat) (st : LedgerState) :
    List (Bet × String) → Except Err LedgerState
  | [] => Except.ok st
  | r :: rs =>
    match place_bet hmac st r.1 r.2 with
    | (st1, Except.ok _) => run_bets hmac st1 rs
    | (_, Except.error e) => Except.error e

/-- Modelled from the spec (§4.5): list the session's spins.  The store is
append-only in settlement order, so the stored sequence is returned as-is;
that it is ordered by increasing nonce is proved below. -/
def list_spins (st : LedgerState) : List Spin :=
  st.spins

/-- Modelled from the spec (§4.1): `open_session`.  The secret seed comes
from the external entropy source (§6), so it is a parameter here; the
commitment is the abstract one-way hash of the secret, and the fresh session
starts with `nonce = 0` and `revealed = false`.  Returns the session and the
commitment exposed to the caller. -/
def open_session (hash : String → String) (secret : String) : Session × String :=
  ({ secretSeed := secret, commitment := hash secret, nonce := 0, revealed := false },
   hash secret)

/-- Modelled from the spec (§4.1): `reveal` marks the session revealed and
returns the secret seed together with the commitment. -/
def reveal (s : Session) : Session × String × String :=
  ({ s with revealed := true }, s.secretSeed, s.commitment)

/-- A concrete stand-in keyed hash used to instantiate the abstract HMAC
parameter on concrete runs. -/
def testHmac : String → String → List Nat := fun _ _ => [0, 0, 0, 0]

theorem settle_balance (u : User) (b : Bet) (w : Bool) :
    (settle u b w).1.balance = u.balance - b.amount + (settle u b w).2 := by
  cases w <;> simp [settle]

theorem settle_payout_false (u : User) (b : Bet) : (settle u b false).2 = 0 := rfl

theorem settle_payout_true (u : User) (b : Bet) :
    (settle u b true).2 = b.amount * multiplier b.kind := rfl

/-- C2: `derive` is a pure deterministic function — for a fixed triple
`(secret_seed, client_seed, nonce)`, any two invocations return the same
pocket, the same color and the same verification tag. -/
theorem derive_deterministic (hmac : String → String → List Nat)
    (secretSeed clientSeed : String) (nonce : Nat) (r1 r2 : Nat × Color × String)
    (h1 : r1 = derive hmac secretSeed clientSeed nonce)
    (h2 : r2 = derive hmac secretSeed clientSeed nonce) :
    r1.1 = r2.1 ∧ r1.2.1 = r2.2.1 ∧ r1.2.2 = r2.2.2 := by
  subst h1; subst h2; exact ⟨rfl, rfl, rfl⟩

/-- C2 witness: two concrete invocations of `derive` on the same triple agree
componentwise. -/
theorem derive_deterministic_witness :
    (derive testHmac "key" "seed" 3).1 = (derive testHmac "key" "seed" 3).1
    ∧ (derive testHmac "key" "seed" 3).2.1 = (derive testHmac "key" "seed" 3).2.1
    ∧ (derive testHmac "key" "seed" 3).2.2 = (derive testHmac "key" "seed" 3).2.2 :=
  derive_deterministic testHmac "key" "seed" 3 _ _ rfl rfl

/-- C3: the pocket a spin derives is in 0..36, its color is the fixed total
lookup on the pocket, and for every pocket in 0..36 that lookup yields exactly
one of green/red/black — green for 0, red on the fixed eighteen-element red
set, black on every other nonzero pocket. -/
theorem color_partition (hmac : String → String → List Nat)
    (secretSeed clientSeed : String) (nonce : Nat) (p : Nat) (hp : p ≤ 36) :
    (derive hmac secretSeed clientSeed nonce).1 ≤ 36
    ∧ (derive hmac secretSeed clientSeed nonce).2.1
        = colorOf (derive hmac secretSeed clientSeed nonce).1
    ∧ (colorOf p = Color.green ∨ colorOf p = Color.red ∨ colorOf p = Color.black)
    ∧ (p = 0 → colorOf p = Color.green)
    ∧ (p ∈ redPockets → colorOf p = Color.red)
    ∧ (p ≠ 0 → p ∉ redPockets → colorOf p = Color.black)
    ∧ redPockets.length = 18 := by
  refine ⟨?_, rfl, ?_, ?_, ?_, ?_, rfl⟩
  · exact Nat.le_of_lt_succ (Nat.mod_lt _ (by norm_num))
  · by_cases h0 : p = 0
    · exact Or.inl (by simp [colorOf, h0])
    · by_cases hr : p ∈ redPockets
      · exact Or.inr (Or.inl (by simp [colorOf, h0, hr]))
      · exact Or.inr (Or.inr (by simp [colorOf, h0, hr]))
  · intro h0; simp [colorOf, h0]
  · intro hr
    have h0 : p ≠ 0 := by rintro rfl; revert hr; decide
    simp [colorOf, h0, hr]
  · intro h0 hr; simp [colorOf, h0, hr]

/-- C3 witness: instantiated at pocket 17 (and the bound 17 ≤ 36 holds). -/
theorem color_partition_witness :
    (17 : Nat) ≤ 36
    ∧ ((derive testHmac "key" "seed" 0).1 ≤ 36
      ∧ (derive testHmac "key" "seed" 0).2.1
          = colorOf (derive testHmac "key" "seed" 0).1
      ∧ (colorOf 17 = Color.green ∨ colorOf 17 = Color.red ∨ colorOf 17 = Color.black)
      ∧ ((17 : Nat) = 0 → colorOf 17 = Color.green)
      ∧ ((17 : Nat) ∈ redPockets → colorOf 17 = Color.red)
      ∧ ((17 : Nat) ≠ 0 → (17 : Nat) ∉ redPockets → colorOf 17 = Color.black)
      ∧ redPockets.length = 18) :=
  ⟨by decide, color_partition testHmac "key" "seed" 0 17 (by decide)⟩

/-- C1: whenever `place_bet` settles a bet, the balance after settlement is
the balance before minus the stake plus the payout; the payout is 0 on a loss
and `stake * multiplier` on a win; and the multiplier table is fixed at 35
for straight, 2 for dozen and column, and 1 for color, odd_even and
low_high. -/
theorem ledger_conservation (hmac : String → String → List Nat)
    (st : LedgerState) (b : Bet) (clientSeed : String)
    (st' : LedgerState) (spin : Spin) (won : Bool) (payout : Int)
    (h : place_bet hmac st b clientSeed = (st', Except.ok (spin, won, payout))) :
    st'.user.balance = st.user.balance - b.amount + payout
    ∧ (won = false → payout = 0)
    ∧ (won = true → payout = b.amount * multiplier b.kind)
    ∧ (∀ number, multiplier (BetKind.straight number) = 35)
    ∧ (∀ which, multiplier (BetKind.dozen which) = 2)
    ∧ (∀ which, multiplier (BetKind.column which) = 2)
    ∧ (∀ side, multiplier (BetKind.color side) = 1)
    ∧ (∀ odd, multiplier (BetKind.odd_even odd) = 1)
    ∧ (∀ low, multiplier (BetKind.low_high low) = 1) := by
  unfold place_bet at h
  split at h
  · simp at h
  · split at h
    · simp at h
    · split at h
      · simp at h
      · simp only [Prod.mk.injEq, Except.ok.injEq] at h
        obtain ⟨hst, hspin, hwon, hpay⟩ := h
        subst hst; subst hwon; subst hpay
        refine ⟨settle_balance st.user b _, ?_, ?_,
          fun _ => rfl, fun _ => rfl, fun _ => rfl, fun _ => rfl, fun _ => rfl, fun _ => rfl⟩
        · intro hw; rw [hw]; exact settle_payout_false st.user b
        · intro hw; rw [hw]; exact settle_payout_true st.user b

/-- The user, bet and state used to exercise the settlement path on a
concrete run: balance 10, a straight bet of 5 on number 0, and the stand-in
hash whose digest is all zero bytes, so the derived pocket is 0 and the bet
wins with payout 175. -/
def st0 : LedgerState :=
  { user := { balance := 10, totalWon := 0, totalLost := 0 },
    session := { secretSeed := "k", commitment := "c", nonce := 0, revealed := false },
    spins := [] }

def b0 : Bet := { kind := BetKind.straight 0, amount := 5 }

def spin0 : Spin :=
  { nonce := 0, clientSeed := "s", tag := "00000000", pocket := 0, color := Color.green }

def st1 : LedgerState :=
  { user := { balance := 180, totalWon := 175, totalLost := 0 },
    session := { secretSeed := "k", commitment := "c", nonce := 1, revealed := false },
    spins := [spin0] }

/-- C1 witness: the concrete settlement above balances the ledger. -/
theorem ledger_conservation_witness :
    place_bet testHmac st0 b0 "s" = (st1, Except.ok (spin0, true, 175))
    ∧ st1.user.balance = st0.user.balance - b0.amount + 175 :=
  ⟨by rfl,
   (ledger_conservation testHmac st0 b0 "s" st1 spin0 true 175 (by rfl)).1⟩

/-- C4 (amended): a bet on a non-revealed session whose stake exceeds the
user's balance fails with `InsufficientFunds` and leaves the balance and the
lifetime winning/loss counters exactly as they were. -/
theorem no_overdraft (hmac : String → String → List Nat)
    (st : LedgerState) (b : Bet) (clientSeed : String)
    (hrev : st.session.revealed = false)
    (hover : st.user.balance < b.amount) :
    (place_bet hmac st b clientSeed).2 = Except.error Err.InsufficientFunds
    ∧ (place_bet hmac st b clientSeed).1.user.balance = st.user.balance
    ∧ (place_bet hmac st b clientSeed).1.user.totalWon = st.user.totalWon
    ∧ (place_bet hmac st b clientSeed).1.user.totalLost = st.user.totalLost := by
  unfold place_bet
  simp [hrev, hover]

/-- A revealed session holding a user whose balance is below the stake of
`bigBet`, used to separate the `InvalidState` and `InsufficientFunds`
outcomes. -/
def stRevealed : LedgerState :=
  { user := { balance := 10, totalWon := 0, totalLost := 0 },
    session := { secretSeed := "k", commitment := "c", nonce := 0, revealed := true },
    spins := [] }

def bigBet : Bet := { kind := BetKind.color Color.red, amount := 20 }

/-- C4 counterexample: on a revealed session, a bet whose stake exceeds the
balance is rejected with `InvalidState`, not `InsufficientFunds` — the
revealed-session check of §4.4 step 1 precedes the funds check of step 2. -/
theorem no_overdraft_cex :
    stRevealed.user.balance < bigBet.amount
    ∧ (place_bet testHmac stRevealed bigBet "s").2 = Except.error Err.InvalidState
    ∧ Err.InvalidState ≠ Err.InsufficientFunds := by
  refine ⟨by decide, rfl, by decide⟩

/-- C4 witness: on the non-revealed variant of the same state the overdrawn
bet does fail with `InsufficientFunds` and the user is untouched. -/
theorem no_overdraft_witness :
    st0.session.revealed = false ∧ st0.user.balance < bigBet.amount
    ∧ ((place_bet testHmac st0 bigBet "s").2 = Except.error Err.InsufficientFunds
      ∧ (place_bet testHmac st0 bigBet "s").1.user.balance = st0.user.balance
      ∧ (place_bet testHmac st0 bigBet "s").1.user.totalWon = st0.user.totalWon
      ∧ (place_bet testHmac st0 bigBet "s").1.user.totalLost = st0.user.totalLost) :=
  ⟨rfl, by decide, no_overdraft testHmac st0 bigBet "s" rfl (by decide)⟩

/-- C7: every bet request on a revealed session is rejected with
`InvalidState`; the whole state — user balance and spin history included —
is left exactly as it was, so no spin is derived or recorded. -/
theorem post_reveal_lockout (hmac : String → String → List Nat)
    (st : LedgerState) (b : Bet) (clientSeed : String)
    (hrev : st.session.revealed = true) :
    place_bet hmac st b clientSeed = (st, Except.error Err.InvalidState)
    ∧ (place_bet hmac st b clientSeed).1.user.balance = st.user.balance
    ∧ (place_bet hmac st b clientSeed).1.spins = st.spins := by
  unfold place_bet
  simp [hrev]

/-- C7 witness: the lockout on the concrete revealed state. -/
theorem post_reveal_lockout_witness :
    stRevealed.session.revealed = true
    ∧ (place_bet testHmac stRevealed bigBet "s"
        = (stRevealed, Except.error Err.InvalidState)
      ∧ (place_bet testHmac stRevealed bigBet "s").1.user.balance
          = stRevealed.user.balance
      ∧ (place_bet testHmac stRevealed bigBet "s").1.spins = stRevealed.spins) :=
  ⟨rfl, post_reveal_lockout testHmac stRevealed bigBet "s" rfl⟩

theorem place_bet_ok_shape (hmac : String → String → List Nat)
    (st : LedgerState) (b : Bet) (clientSeed : String)
    (st' : LedgerState) (out : Spin × Bool × Int)
    (h : place_bet hmac st b clientSeed = (st', Except.ok out)) :
    st'.session.nonce = st.session.nonce + 1
    ∧ st'.session.secretSeed = st.session.secretSeed
    ∧ st'.session.commitment = st.session.commitment
    ∧ st'.session.revealed = st.session.revealed
    ∧ st'.spins = st.spins ++ [out.1]
    ∧ out.1.nonce = st.session.nonce := by
  unfold place_bet at h
  split at h
  · simp at h
  · split at h
    · simp at h
    · split at h
      · simp at h
      · simp only [Prod.mk.injEq, Except.ok.injEq] at h
        obtain ⟨hst, hout⟩ := h
        subst hst; subst hout
        exact ⟨rfl, rfl, rfl, rfl, rfl, rfl⟩

theorem run_bets_shape (hmac : String → String → List Nat) :
    ∀ (reqs : List (Bet × String)) (st stf : LedgerState),
      run_bets hmac st reqs = Except.ok stf →
      stf.session.nonce = st.session.nonce + reqs.length
      ∧ stf.spins.map Spin.nonce
          = st.spins.map Spin.nonce ++ List.range' st.session.nonce reqs.length
      ∧ stf.session.secretSeed = st.session.secretSeed
      ∧ stf.session.commitment = st.session.commitment := by
  intro reqs
  induction reqs with
  | nil =>
    intro st stf h
    simp only [run_bets, Except.ok.injEq] at h
    subst h
    simp
  | cons r rs ih =>
    intro st stf h
    simp only [run_bets] at h
    rcases hpb : place_bet hmac st r.1 r.2 with ⟨st1, out⟩
    rw [hpb] at h
    cases out with
    | error e => simp at h
    | ok o =>
      obtain ⟨hn, hseed, hcom, hrev, hspins, hnonce⟩ :=
        place_bet_ok_shape hmac st r.1 r.2 st1 o hpb
      obtain ⟨ihn, ihspins, ihseed, ihcom⟩ := ih st1 stf h
      refine ⟨by rw [ihn, hn]; simp [List.length_cons]; omega, ?_,
        ihseed.trans hseed, ihcom.trans hcom⟩
      rw [ihspins, hspins, hn]
      simp [List.map_append, hnonce, List.range'_succ, List.append_assoc,
        List.length_cons]

/-- C5: from a fresh session, a strict run of N settled bets records spins
whose nonces are exactly 0..N-1 with no gaps or repeats, and `list_spins`
returns them in strictly increasing nonce order. -/
theorem nonce_sequence (hmac : String → String → List Nat)
    (st : LedgerState) (reqs : List (Bet × String)) (stf : LedgerState)
    (h0 : st.session.nonce = 0) (hs : st.spins = [])
    (h : run_bets hmac st reqs = Except.ok stf) :
    (list_spins stf).map Spin.nonce = List.range reqs.length
    ∧ List.Chain' (· < ·) ((list_spins stf).map Spin.nonce) := by
  obtain ⟨hn, hspins, hseed, hcom⟩ := run_bets_shape hmac reqs st stf h
  have hmap : (list_spins stf).map Spin.nonce = List.range reqs.length := by
    rw [list_spins, hspins, hs, h0]
    simp [List.range_eq_range']
  exact ⟨hmap, by rw [hmap]; exact (List.pairwise_lt_range _).chain'⟩

/-- C5 witness: one settled bet from the fresh state `st0` records exactly
the nonce sequence `[0]`, in order. -/
theorem nonce_sequence_witness :
    st0.session.nonce = 0 ∧ st0.spins = []
    ∧ run_bets testHmac st0 [(b0, "s")] = Except.ok st1
    ∧ ((list_spins st1).map Spin.nonce = List.range 1
      ∧ List.Chain' (· < ·) ((list_spins st1).map Spin.nonce)) :=
  ⟨rfl, rfl, by rfl, nonce_sequence testHmac st0 [(b0, "s")] st1 rfl rfl (by rfl)⟩

/-- C6: for a session opened with `open_session` and evolved by any strict
run of bets, the hash of the secret seed returned by `reveal` equals the
commitment `open_session` returned at creation; and `reveal` is idempotent —
it always returns the session's (unchanged) secret seed, and revealing an
already revealed session returns the same secret and commitment again. -/
theorem commitment_soundness (hash : String → String)
    (hmac : String → String → List Nat) (secret : String) (u0 : User)
    (reqs : List (Bet × String)) (stf : LedgerState)
    (h : run_bets hmac
          { user := u0, session := (open_session hash secret).1, spins := [] } reqs
        = Except.ok stf) :
    hash (reveal stf.session).2.1 = (open_session hash secret).2
    ∧ (reveal stf.session).2.1 = secret
    ∧ (∀ s : Session, (reveal s).2.1 = s.secretSeed
        ∧ (reveal (reveal s).1).2.1 = (reveal s).2.1
        ∧ (reveal (reveal s).1).2.2 = (reveal s).2.2) := by
  obtain ⟨hn, hspins, hseed, hcom⟩ := run_bets_shape hmac reqs _ stf h
  have hsec : stf.session.secretSeed = secret := hseed
  refine ⟨?_, ?_, fun s => ⟨rfl, rfl, rfl⟩⟩
  · show hash stf.session.secretSeed = hash secret
    rw [hsec]
  · exact hsec

/-- A concrete stand-in one-way hash for concrete runs. -/
def testHash : String → String := fun s => String.append "h" s

/-- The fresh state obtained by opening a session with the stand-in hash and
secret "sec" for a zero-balance user. -/
def stFresh : LedgerState :=
  { user := { balance := 0, totalWon := 0, totalLost := 0 },
    session := (open_session testHash "sec").1, spins := [] }

/-- C6 witness: the empty run on a freshly opened session — the revealed
secret hashes to the commitment returned at opening, and reveal is
idempotent. -/
theorem commitment_soundness_witness :
    run_bets testHmac stFresh [] = Except.ok stFresh
    ∧ (testHash (reveal stFresh.session).2.1 = (open_session testHash "sec").2
      ∧ (reveal stFresh.session).2.1 = "sec"
      ∧ (∀ s : Session, (reveal s).2.1 = s.secretSeed
          ∧ (reveal (reveal s).1).2.1 = (reveal s).2.1
          ∧ (reveal (reveal s).1).2.2 = (reveal s).2.2)) :=
  ⟨rfl, commitment_soundness testHash testHmac "sec"
    { balance := 0, totalWon := 0, totalLost := 0 } [] stFresh rfl⟩

end Roulette

namespace Admin

/-- The user row as the credit workflow sees it (`app/model.py` is summarized
by its uses in `app/admin/service.py` and the tests): the primary key, the
`saldo` column (nullable — `user.saldo or 0.0` in the code), the lifetime
counters, and identifying fields, which the workflow must not touch.  Python
float money is modelled as exact rationals. -/
structure User where
  id : Nat
  username : String
  saldo : Option ℚ
  ganancias_totales : ℚ
  perdidas_totales : ℚ
  role : String
deriving DecidableEq

/-- A `CreditRequest` row: primary key, owning user, amount, status string
("pending" / "approved" / "denied"), optional note, and the reviewer /
review-time columns set on approval or denial (time as an abstract tick). -/
structure CreditRequest where
  id : Nat
  user_id : Nat
  amount : ℚ
  status : String
  note : Option String
  reviewer_id : Option Nat
  reviewed_at : Option Nat
deriving DecidableEq

/-- The database state the credit workflow reads and writes. -/
structure DB where
  users : List User
  requests : List CreditRequest
deriving DecidableEq

/-- `get_credit_request` (`app/admin/service.py`): select the request by
primary key.  `one_or_none` on a primary-key filter yields the unique match,
modelled as `find?`. -/
def get_credit_request (db : DB) (request_id : Nat) : Option CreditRequest :=
  db.requests.find? fun r => r.id == request_id

/-- `create_credit_request` (`app/admin/service.py`): reject a non-positive
amount with `ValueError("Amount must be positive")`, otherwise insert a new
request with status "pending".  The fresh primary key the database assigns is
the `new_id` parameter. -/
def create_credit_request (db : DB) (user_id : Nat) (new_id : Nat) (amount : ℚ)
    (note : Option String) : Except String (DB × CreditRequest) :=
  if amount ≤ 0 then Except.error "Amount must be positive"
  else
    let req : CreditRequest :=
      { id := new_id, user_id := user_id, amount := amount, status := "pending",
        note := note, reviewer_id := none, reviewed_at := none }
    Except.ok ({ db with requests := db.requests ++ [req] }, req)

/-- The saldo update `user.saldo = (user.saldo or 0.0) + float(req.amount)`
performed by `approve_credit_request`: a NULL (or zero) saldo counts as 0.0
and the request amount is added; no other user field is written. -/
def creditSaldo (user : User) (amount : ℚ) : User :=
  { user with saldo := some (user.saldo.getD 0 + amount) }

/-- The request fields `approve_credit_request` writes: status, review time
and reviewer. -/
def markApproved (req : CreditRequest) (reviewer_user_id now : Nat) : CreditRequest :=
  { req with status := "approved", reviewed_at := some now, reviewer_id := some reviewer_user_id }

/-- The note value after `deny_credit_request`: appended only when the passed
note is truthy in Python (neither absent nor the empty string). -/
def denyNote (old : Option String) (note : Option String) : Option String :=
  match note with
  | some n => if n.isEmpty then old else some (old.getD "" ++ " | Deny note: " ++ n)
  | none => old

/-- The request fields `deny_credit_request` writes: status, review time,
reviewer and the possibly-appended note. -/
def markDenied (req : CreditRequest) (reviewer_user_id now : Nat)
    (note : Option String) : CreditRequest :=
  { req with status := "denied", reviewed_at := some now, reviewer_id := some reviewer_user_id, note := denyNote req.note note }

/-- `approve_credit_request` (`app/admin/service.py`): load the request
(`ValueError("Request not found")` if absent), reject a non-pending status
with `ValueError("Request already processed")`, load the owning user
(`ValueError("User not found")` if absent), apply `creditSaldo` to the user
and `markApproved` to the request (`now` is the abstract timestamp).  The
commit writes both rows back by primary key. -/
def approve_credit_request (db : DB) (request_id : Nat) (reviewer_user_id : Nat)
    (now : Nat) : Except String (DB × CreditRequest) :=
  match get_credit_request db request_id with
  | none => Except.error "Request not found"
  | some req =>
    if req.status ≠ "pending" then Except.error "Request already processed"
    else
      match db.users.find? (fun u => u.id == req.user_id) with
      | none => Except.error "User not found"
      | some user =>
        Except.ok
          ({ users := db.users.map fun u => if u.id = user.id then creditSaldo user req.amount else u,
             requests := db.requests.map fun r => if r.id = request_id then markApproved req reviewer_user_id now else r },
           markApproved req reviewer_user_id now)

/-- `deny_credit_request` (`app/admin/service.py`): load the request, reject a
non-pending status with `ValueError("Request already processed")`, and apply
`markDenied` to the request.  No user row is written. -/
def deny_credit_request (db : DB) (request_id : Nat) (reviewer_user_id : Nat)
    (now : Nat) (note : Option String) : Except String (DB × CreditRequest) :=
  match get_credit_request db request_id with
  | none => Except.error "Request not found"
  | some req =>
    if req.status ≠ "pending" then Except.error "Request already processed"
    else
      Except.ok
        ({ db with requests := db.requests.map fun r => if r.id = request_id then markDenied req reviewer_user_id now note else r },
         markDenied req reviewer_user_id now note)

/-- `create_credit_request_endpoint` (`app/credits/routes.py`): the handler
for POST `/v1/credits/request`.  Token validation is
`get_user_from_token` — modelled by the `user` parameter being `none`
(invalid token, HTTP 401) or the authenticated user's id.  With a valid
user, an existing "pending" request of that user yields HTTP 400 and nothing
is created; otherwise the admin-service `create_credit_request` runs, a
`ValueError` from it becoming HTTP 400. -/
def create_credit_request_endpoint (db : DB) (user : Option Nat) (new_id : Nat)
    (amount : ℚ) (note : Option String) : DB × Except (Nat × String) CreditRequest :=
  match user with
  | none => (db, Except.error (401, "Token inválido o expirado"))
  | some uid =>
    if ((db.requests.find? fun r => r.user_id == uid && r.status == "pending").isSome) then
      (db, Except.error (400, "Ya existe una solicitud pendiente. Espera a que se procese."))
    else
      match create_credit_request db uid new_id amount note with
      | Except.error e => (db, Except.error (400, e))
      | Except.ok (db2, req) => (db2, Except.ok req)

/-- The number of pending credit requests a given user has in the store. -/
def pendingCount (db : DB) (uid : Nat) : Nat :=
  (db.requests.filter fun r => r.user_id == uid && r.status == "pending").length

theorem approve_ok_elim (db : DB) (rid reviewer now : Nat)
    (db2 : DB) (req2 : CreditRequest)
    (h : approve_credit_request db rid reviewer now = Except.ok (db2, req2)) :
    ∃ req user,
      get_credit_request db rid = some req
      ∧ req.status = "pending"
      ∧ db.users.find? (fun u => u.id == req.user_id) = some user
      ∧ req2 = markApproved req reviewer now
      ∧ db2.users = db.users.map (fun u => if u.id = user.id then creditSaldo user req.amount else u)
      ∧ db2.requests = db.requests.map (fun r => if r.id = rid then req2 else r) := by
  cases hget : get_credit_request db rid with
  | none =>
    simp only [approve_credit_request, hget] at h
    exact Except.noConfusion h
  | some req =>
    simp only [approve_credit_request, hget] at h
    by_cases hst : req.status = "pending"
    · rw [if_neg (by simp [hst])] at h
      cases hu : db.users.find? (fun u => u.id == req.user_id) with
      | none =>
        rw [hu] at h
        exact Except.noConfusion h
      | some user =>
        rw [hu] at h
        simp only [Except.ok.injEq, Prod.mk.injEq] at h
        obtain ⟨h1, h2⟩ := h
        exact ⟨req, user, rfl, hst, hu, h2.symm, by rw [← h1],
          by rw [← h2, ← h1]⟩
    · rw [if_pos hst] at h
      exact Except.noConfusion h

theorem deny_ok_elim (db : DB) (rid reviewer now : Nat) (dnote : Option String)
    (db2 : DB) (req2 : CreditRequest)
    (h : deny_credit_request db rid reviewer now dnote = Except.ok (db2, req2)) :
    ∃ req,
      get_credit_request db rid = some req
      ∧ req.status = "pending"
      ∧ req2 = markDenied req reviewer now dnote
      ∧ db2.users = db.users
      ∧ db2.requests = db.requests.map (fun r => if r.id = rid then req2 else r) := by
  cases hget : get_credit_request db rid with
  | none =>
    simp only [deny_credit_request, hget] at h
    exact Except.noConfusion h
  | some req =>
    simp only [deny_credit_request, hget] at h
    by_cases hst : req.status = "pending"
    · rw [if_neg (by simp [hst])] at h
      simp only [Except.ok.injEq, Prod.mk.injEq] at h
      obtain ⟨h1, h2⟩ := h
      exact ⟨req, rfl, hst, h2.symm, by rw [← h1], by rw [← h2, ← h1]⟩
    · rw [if_pos hst] at h
      exact Except.noConfusion h

theorem create_ok_elim (db : DB) (uid nid : Nat) (amount : ℚ)
    (note : Option String) (db2 : DB) (req2 : CreditRequest)
    (h : create_credit_request db uid nid amount note = Except.ok (db2, req2)) :
    req2 = { id := nid, user_id := uid, amount := amount, status := "pending",
             note := note, reviewer_id := none, reviewed_at := none }
    ∧ db2.users = db.users
    ∧ db2.requests = db.requests ++ [req2] := by
  by_cases hle : amount ≤ 0
  · rw [create_credit_request, if_pos hle] at h
    exact Except.noConfusion h
  · rw [create_credit_request, if_neg hle] at h
    simp only [Except.ok.injEq, Prod.mk.injEq] at h
    obtain ⟨h1, h2⟩ := h
    exact ⟨h2.symm, by rw [← h1], by rw [← h2, ← h1]⟩

/-- C8: the credit-request workflow is a pending/approved/denied state
machine with one-way transitions — a non-positive amount raises
`ValueError("Amount must be positive")` and every created request starts in
status "pending"; approval and denial raise
`ValueError("Request already processed")` on a non-pending request and set
"approved" / "denied" respectively; and a stored request that is no longer
pending is left untouched by all three operations, so no request ever
leaves the approved or denied state. -/
theorem credit_request_state_machine (db : DB) (rid reviewer now : Nat)
    (dnote : Option String) :
    (∀ uid nid amount note, amount ≤ 0 →
        create_credit_request db uid nid amount note = Except.error "Amount must be positive")
    ∧ (∀ uid nid amount note db2 req2,
        create_credit_request db uid nid amount note = Except.ok (db2, req2) →
        req2.status = "pending")
    ∧ (∀ req, get_credit_request db rid = some req → req.status ≠ "pending" →
        approve_credit_request db rid reviewer now = Except.error "Request already processed"
        ∧ deny_credit_request db rid reviewer now dnote = Except.error "Request already processed")
    ∧ (∀ db2 req2, approve_credit_request db rid reviewer now = Except.ok (db2, req2) →
        req2.status = "approved")
    ∧ (∀ db2 req2, deny_credit_request db rid reviewer now dnote = Except.ok (db2, req2) →
        req2.status = "denied")
    ∧ ((db.requests.map CreditRequest.id).Nodup →
        ∀ r ∈ db.requests, r.status ≠ "pending" →
          (∀ uid nid amount note db2 req2,
              create_credit_request db uid nid amount note = Except.ok (db2, req2) →
              r ∈ db2.requests)
          ∧ (∀ db2 req2, approve_credit_request db rid reviewer now = Except.ok (db2, req2) →
              r ∈ db2.requests)
          ∧ (∀ db2 req2, deny_credit_request db rid reviewer now dnote = Except.ok (db2, req2) →
              r ∈ db2.requests)) := by
  refine ⟨?_, ?_, ?_, ?_, ?_, ?_⟩
  · intro uid nid amount note h
    rw [create_credit_request, if_pos h]
  · intro uid nid amount note db2 req2 h
    obtain ⟨h1, _, _⟩ := create_ok_elim db uid nid amount note db2 req2 h
    rw [h1]
  · intro req hget hst
    constructor
    · simp only [approve_credit_request, hget]
      rw [if_pos hst]
    · simp only [deny_credit_request, hget]
      rw [if_pos hst]
  · intro db2 req2 h
    obtain ⟨req, user, _, _, _, h4, _, _⟩ :=
      approve_ok_elim db rid reviewer now db2 req2 h
    rw [h4]; rfl
  · intro db2 req2 h
    obtain ⟨req, _, _, h3, _, _⟩ := deny_ok_elim db rid reviewer now dnote db2 req2 h
    rw [h3]; rfl
  · intro hnd r hr hst
    refine ⟨?_, ?_, ?_⟩
    · intro uid nid amount note db2 req2 h
      obtain ⟨_, _, h3⟩ := create_ok_elim db uid nid amount note db2 req2 h
      rw [h3]
      exact List.mem_append_left _ hr
    · intro db2 req2 h
      obtain ⟨req, user, hget, hpend, hu, hreq2, hus, hreqs⟩ :=
        approve_ok_elim db rid reviewer now db2 req2 h
      have hget' : db.requests.find? (fun x => x.id == rid) = some req := hget
      have hid : r.id ≠ rid := by
        intro hEq
        have hreqmem : req ∈ db.requests := List.mem_of_find?_eq_some hget'
        have hqid : req.id = rid := by simpa using List.find?_some hget'
        have hrq : r = req := List.inj_on_of_nodup_map hnd hr hreqmem (by rw [hEq, hqid])
        exact hst (by rw [hrq]; exact hpend)
      rw [hreqs]
      have hmem := List.mem_map_of_mem (fun x => if x.id = rid then req2 else x) hr
      simpa [hid] using hmem
    · intro db2 req2 h
      obtain ⟨req, hget, hpend, hreq2, hus, hreqs⟩ :=
        deny_ok_elim db rid reviewer now dnote db2 req2 h
      have hget' : db.requests.find? (fun x => x.id == rid) = some req := hget
      have hid : r.id ≠ rid := by
        intro hEq
        have hreqmem : req ∈ db.requests := List.mem_of_find?_eq_some hget'
        have hqid : req.id = rid := by simpa using List.find?_some hget'
        have hrq : r = req := List.inj_on_of_nodup_map hnd hr hreqmem (by rw [hEq, hqid])
        exact hst (by rw [hrq]; exact hpend)
      rw [hreqs]
      have hmem := List.mem_map_of_mem (fun x => if x.id = rid then req2 else x) hr
      simpa [hid] using hmem

/-- C9: when `approve_credit_request` succeeds it found a pending request and
its owning user; that user's saldo becomes the old saldo (a missing saldo
counting as 0.0) plus exactly the request amount, every other field of the
user — id, username, lifetime counters, role — is unchanged, and every other
user row is untouched; `deny_credit_request` never modifies any user. -/
theorem approve_saldo_frame (db : DB) (rid reviewer now : Nat) :
    (∀ db2 req2, approve_credit_request db rid reviewer now = Except.ok (db2, req2) →
      ∃ req user,
        get_credit_request db rid = some req
        ∧ db.users.find? (fun u => u.id == req.user_id) = some user
        ∧ user ∈ db.users
        ∧ creditSaldo user req.amount ∈ db2.users
        ∧ (creditSaldo user req.amount).saldo = some (user.saldo.getD 0 + req.amount)
        ∧ (creditSaldo user req.amount).id = user.id
        ∧ (creditSaldo user req.amount).username = user.username
        ∧ (creditSaldo user req.amount).ganancias_totales = user.ganancias_totales
        ∧ (creditSaldo user req.amount).perdidas_totales = user.perdidas_totales
        ∧ (creditSaldo user req.amount).role = user.role
        ∧ (∀ u ∈ db.users, u.id ≠ user.id → u ∈ db2.users))
    ∧ (∀ dnote db2 req2,
        deny_credit_request db rid reviewer now dnote = Except.ok (db2, req2) →
        db2.users = db.users) := by
  constructor
  · intro db2 req2 h
    obtain ⟨req, user, hget, hpend, hu, hreq2, hus, hreqs⟩ :=
      approve_ok_elim db rid reviewer now db2 req2 h
    have humem : user ∈ db.users := List.mem_of_find?_eq_some hu
    refine ⟨req, user, hget, hu, humem, ?_, rfl, rfl, rfl, rfl, rfl, rfl, ?_⟩
    · rw [hus]
      have hmem := List.mem_map_of_mem
        (fun u => if u.id = user.id then creditSaldo user req.amount else u) humem
      simpa using hmem
    · intro u hu2 hne
      rw [hus]
      have hmem := List.mem_map_of_mem
        (fun v => if v.id = user.id then creditSaldo user req.amount else v) hu2
      simpa [hne] using hmem
  · intro dnote db2 req2 h
    obtain ⟨req, _, _, _, hus, _⟩ := deny_ok_elim db rid reviewer now dnote db2 req2 h
    exact hus

/-- C10: on a valid token, when the authenticated user already has a pending
credit request the endpoint answers HTTP 400 with the duplicate-request
message and leaves the store unchanged — no `CreditRequest` is created; and
the endpoint preserves the invariant that the user has at most one pending
request, so a user submitting only through this endpoint never has more than
one pending request at a time. -/
theorem endpoint_single_pending (db : DB) (uid nid : Nat) (amount : ℚ)
    (note : Option String) :
    ((∃ r ∈ db.requests, r.user_id = uid ∧ r.status = "pending") →
        (create_credit_request_endpoint db (some uid) nid amount note).1 = db
        ∧ (create_credit_request_endpoint db (some uid) nid amount note).2
            = Except.error (400, "Ya existe una solicitud pendiente. Espera a que se procese."))
    ∧ (pendingCount db uid ≤ 1 →
        pendingCount (create_credit_request_endpoint db (some uid) nid amount note).1 uid ≤ 1) := by
  constructor
  · rintro ⟨r, hr, h1, h2⟩
    have hsome : ((db.requests.find? fun q => q.user_id == uid && q.status == "pending").isSome) := by
      rw [List.find?_isSome]
      exact ⟨r, hr, by simp [h1, h2]⟩
    constructor
    · simp only [create_credit_request_endpoint]
      rw [if_pos hsome]
    · simp only [create_credit_request_endpoint]
      rw [if_pos hsome]
  · intro hc
    cases hfind : db.requests.find? fun q => q.user_id == uid && q.status == "pending" with
    | some r =>
      have hsome : ((db.requests.find? fun q => q.user_id == uid && q.status == "pending").isSome) := by
        rw [hfind]; rfl
      simp only [create_credit_request_endpoint]
      rw [if_pos hsome]
      exact hc
    | none =>
      have hnot : ¬ ((db.requests.find? fun q => q.user_id == uid && q.status == "pending").isSome) := by
        rw [hfind]; simp
      have hnil : (db.requests.filter fun q => q.user_id == uid && q.status == "pending") = [] := by
        rw [List.filter_eq_nil_iff]
        intro a ha
        exact List.find?_eq_none.mp hfind a ha
      by_cases hle : amount ≤ 0
      · simp only [create_credit_request_endpoint]
        rw [if_neg hnot, create_credit_request, if_pos hle]
        exact hc
      · simp only [create_credit_request_endpoint]
        rw [if_neg hnot, create_credit_request, if_neg hle]
        simp only [pendingCount, List.filter_append, hnil, List.nil_append]
        simp [List.filter]

/-- Concrete rows used to exercise the credit workflow: one user with a NULL
saldo, one pending request of that user and one already-approved request. -/
def u1 : User :=
  { id := 7, username := "alice", saldo := none, ganancias_totales := 0, perdidas_totales := 0, role := "User" }

def reqPending : CreditRequest :=
  { id := 3, user_id := 7, amount := 50, status := "pending", note := none, reviewer_id := none, reviewed_at := none }

def reqDone : CreditRequest :=
  { id := 4, user_id := 7, amount := 5, status := "approved", note := none, reviewer_id := some 9, reviewed_at := some 1 }

def adb : DB := { users := [u1], requests := [reqDone, reqPending] }

/-- C8 witness: on the concrete store, a zero-amount creation and the two
operations on the already-approved request all fail as the state machine
demands. -/
theorem credit_request_state_machine_witness :
    create_credit_request adb 7 9 0 none = Except.error "Amount must be positive"
    ∧ approve_credit_request adb 4 9 1 = Except.error "Request already processed"
    ∧ deny_credit_request adb 4 9 1 none = Except.error "Request already processed" :=
  ⟨(credit_request_state_machine adb 4 9 1 none).1 7 9 0 none le_rfl,
   ((credit_request_state_machine adb 4 9 1 none).2.2.1 reqDone rfl (by decide)).1,
   ((credit_request_state_machine adb 4 9 1 none).2.2.1 reqDone rfl (by decide)).2⟩

/-- The store after approving the pending request of the concrete run. -/
def adb2 : DB :=
  { users := [creditSaldo u1 reqPending.amount],
    requests := [reqDone, markApproved reqPending 9 1] }

/-- C9 witness: approving request 3 on the concrete store succeeds and the
frame property holds there. -/
theorem approve_saldo_frame_witness :
    approve_credit_request adb 3 9 1 = Except.ok (adb2, markApproved reqPending 9 1)
    ∧ (∃ req user,
        get_credit_request adb 3 = some req
        ∧ adb.users.find? (fun u => u.id == req.user_id) = some user
        ∧ user ∈ adb.users
        ∧ creditSaldo user req.amount ∈ adb2.users
        ∧ (creditSaldo user req.amount).saldo = some (user.saldo.getD 0 + req.amount)
        ∧ (creditSaldo user req.amount).id = user.id
        ∧ (creditSaldo user req.amount).username = user.username
        ∧ (creditSaldo user req.amount).ganancias_totales = user.ganancias_totales
        ∧ (creditSaldo user req.amount).perdidas_totales = user.perdidas_totales
        ∧ (creditSaldo user req.amount).role = user.role
        ∧ (∀ u ∈ adb.users, u.id ≠ user.id → u ∈ adb2.users)) :=
  ⟨by rfl,
   (approve_saldo_frame adb 3 9 1).1 adb2 (markApproved reqPending 9 1) (by rfl)⟩

/-- C10 witness: user 7 of the concrete store has a pending request, so a new
submission is answered with HTTP 400, nothing is created, and the
at-most-one-pending invariant is preserved. -/
theorem endpoint_single_pending_witness :
    (∃ r ∈ adb.requests, r.user_id = 7 ∧ r.status = "pending")
    ∧ ((create_credit_request_endpoint adb (some 7) 9 20 none).1 = adb
      ∧ (create_credit_request_endpoint adb (some 7) 9 20 none).2
          = Except.error (400, "Ya existe una solicitud pendiente. Espera a que se procese."))
    ∧ pendingCount adb 7 ≤ 1
    ∧ pendingCount (create_credit_request_endpoint adb (some 7) 9 20 none).1 7 ≤ 1 :=
  have hex : ∃ r ∈ adb.requests, r.user_id = 7 ∧ r.status = "pending" :=
    ⟨reqPending, List.mem_cons_of_mem reqDone (List.mem_cons_self reqPending []), rfl, rfl⟩
  have hc : pendingCount adb 7 ≤ 1 := by decide
  ⟨hex, (endpoint_single_pending adb 7 9 20 none).1 hex, hc,
   (endpoint_single_pending adb 7 9 20 none).2 hc⟩

end Admin
